import Mathlib

/-
Verification development for the Garden of Forking Paths narrative engine.

The repository ships the deployment scaffolding (Dockerfile, README, deploy
script) and two exploratory notebooks; the narrative core named by the
README (the engine directory, the app entry point and the saves store) is
not part of the delivered sources, so the Path Engine, its Session data
model and the Session Store are modelled here from the specification.
The notebook src/garden.ipynb, which builds a langgraph conversation graph
with an add_messages-annotated state key, is embedded directly.
-/

namespace Garden

/-- Modelled from the spec: the side of a fork recorded on a step, the enum
LEFT, RIGHT, UNDECIDED; UNDECIDED marks the most recent, not yet resolved
step. The engine source holding this enum is absent from the delivered
repository. -/
inductive Side where
  | LEFT
  | RIGHT
  | UNDECIDED
deriving DecidableEq, Repr

/-- Modelled from the spec: the argument type of choose, which accepts only
LEFT or RIGHT (never UNDECIDED). -/
inductive PickedSide where
  | LEFT
  | RIGHT
deriving DecidableEq, Repr

def PickedSide.toSide : PickedSide → Side
  | .LEFT => Side.LEFT
  | .RIGHT => Side.RIGHT

/-- Modelled from the spec: the immutable traveler identity, a free-text
self-description supplied once at session start. -/
structure TravelerIdentity where
  description : String
deriving DecidableEq, Repr

/-- Modelled from the spec: one node of the journey, with the narrated
situation, the two offered options, an optional vision aside, and the
recorded side. -/
structure ScenarioStep where
  scenario_text : String
  left_option : String
  right_option : String
  vision_text : Option String
  chosen_side : Side
deriving DecidableEq, Repr

/-- Modelled from the spec: the session status enum; ENDED is terminal. -/
inductive Status where
  | ACTIVE
  | ENDED
deriving DecidableEq, Repr

/-- Modelled from the spec: the aggregate Session, with an opaque immutable
identifier, the traveler, the chronological history and the status. -/
structure Session where
  session_id : String
  traveler : TravelerIdentity
  history : List ScenarioStep
  status : Status
deriving DecidableEq, Repr

/-- Modelled from the spec: the Path Engine error taxonomy relevant to the
engine operations. -/
inductive EngineError where
  | InvalidStateError
  | GenerationError
deriving DecidableEq, Repr

/-- Modelled from the spec: the structurally unvalidated payload the
Narrator returns for one generation request. -/
structure NarratorResponse where
  scenario_text : String
  left_option : String
  right_option : String
  vision_text : Option String
deriving DecidableEq, Repr

/-- Modelled from the spec: the Narrator collaborator, abstracted as a
function from the traveler identity and the ordered history to a response
payload. Nondeterminism of the real model call is captured by quantifying
over this function. -/
def Narrator : Type := TravelerIdentity → List ScenarioStep → NarratorResponse

/-- Modelled from the spec: structural validation of a Narrator response —
non-empty scenario text, both options present (non-empty) and distinct. -/
def wellFormed (r : NarratorResponse) : Prop :=
  r.scenario_text ≠ "" ∧ r.left_option ≠ "" ∧ r.right_option ≠ "" ∧
    r.left_option ≠ r.right_option

instance (r : NarratorResponse) : Decidable (wellFormed r) := by
  unfold wellFormed; infer_instance

/-- Modelled from the spec: the ScenarioStep the engine appends for a
validated response, always with chosen side UNDECIDED. -/
def stepOf (r : NarratorResponse) : ScenarioStep :=
  { scenario_text := r.scenario_text
    left_option := r.left_option
    right_option := r.right_option
    vision_text := r.vision_text
    chosen_side := Side.UNDECIDED }

/-- Modelled from the spec: session construction — empty history, status
ACTIVE, the identifier and the traveler fixed at creation. -/
def mkSession (sid : String) (t : TravelerIdentity) : Session :=
  { session_id := sid
    traveler := t
    history := []
    status := Status.ACTIVE }

/-- Modelled from the spec: the start operation. It creates the fresh
session, requests the opening step from the Narrator with an empty
history, and appends it UNDECIDED when the response is well-formed;
otherwise it reports GenerationError and the returned session carries no
appended step. Mutation is rendered as returning the successor session
paired with the error, the first component equal to the input shape on
failure. -/
def start (n : Narrator) (sid : String) (t : TravelerIdentity) :
    Session × Option EngineError :=
  let s := mkSession sid t
  let r := n t []
  if wellFormed r then
    ({ s with history := [stepOf r] }, none)
  else
    (s, some EngineError.GenerationError)

/-- Modelled from the spec: the choose operation. Preconditions: status
ACTIVE, non-empty history, last step UNDECIDED; its sole effect is setting
the last step to the picked side, and any violated precondition yields
InvalidStateError with the session untouched. -/
def choose (side : PickedSide) (s : Session) : Session × Option EngineError :=
  match s.status, s.history.getLast? with
  | Status.ACTIVE, some last =>
    if last.chosen_side = Side.UNDECIDED then
      ({ s with history :=
          s.history.dropLast ++ [{ last with chosen_side := side.toSide }] },
        none)
    else
      (s, some EngineError.InvalidStateError)
  | _, _ => (s, some EngineError.InvalidStateError)

/-- Modelled from the spec: the advance operation. Preconditions: status
ACTIVE and a resolved last step; it builds the Narrator request from the
traveler and the full history, validates the response, and appends a new
UNDECIDED step, failing with GenerationError on a malformed response and
with InvalidStateError on a violated precondition, the session unchanged
in either failure. -/
def advance (n : Narrator) (s : Session) : Session × Option EngineError :=
  match s.status, s.history.getLast? with
  | Status.ACTIVE, some last =>
    if last.chosen_side = Side.UNDECIDED then
      (s, some EngineError.InvalidStateError)
    else
      let r := n s.traveler s.history
      if wellFormed r then
        ({ s with history := s.history ++ [stepOf r] }, none)
      else
        (s, some EngineError.GenerationError)
  | _, _ => (s, some EngineError.InvalidStateError)

/-- Modelled from the spec: the end-journey operation, which sets status
ENDED and is an idempotent no-op on an already ENDED session. -/
def endJourney (s : Session) : Session × Option EngineError :=
  ({ s with status := Status.ENDED }, none)

/-- Modelled from the spec: the operations a caller can issue on an
existing session through the engine surface. -/
inductive Op where
  | chooseOp (side : PickedSide)
  | advanceOp
  | endOp
deriving DecidableEq, Repr

/-- Modelled from the spec: dispatch of one engine operation. -/
def applyOp (n : Narrator) (op : Op) (s : Session) :
    Session × Option EngineError :=
  match op with
  | Op.chooseOp side => choose side s
  | Op.advanceOp => advance n s
  | Op.endOp => endJourney s

/-- Modelled from the spec: running a sequence of engine operations,
keeping each successor session (on failure the successor equals the
input, so failed calls leave the session as it was). -/
def run (n : Narrator) (ops : List Op) (s : Session) : Session :=
  ops.foldl (fun acc op => (applyOp n op acc).fst) s

/-- Modelled from the spec: the pending-choice data-model invariant —
every step strictly before the last is resolved (not UNDECIDED). -/
def histOk (h : List ScenarioStep) : Prop :=
  ∀ st ∈ h.dropLast, st.chosen_side ≠ Side.UNDECIDED

instance (h : List ScenarioStep) : Decidable (histOk h) := by
  unfold histOk; infer_instance

/-- Modelled from the spec: the option well-formedness data-model
invariant — every stored step has non-empty scenario text and two
non-empty, distinct options. -/
def optsOk (h : List ScenarioStep) : Prop :=
  ∀ st ∈ h, st.scenario_text ≠ "" ∧ st.left_option ≠ "" ∧
    st.right_option ≠ "" ∧ st.left_option ≠ st.right_option

instance (h : List ScenarioStep) : Decidable (optsOk h) := by
  unfold optsOk; infer_instance

/-- Modelled from the spec: the conjunction of the data-model invariants a
stored history must satisfy. -/
def goodHistory (h : List ScenarioStep) : Prop :=
  histOk h ∧ optsOk h

instance (h : List ScenarioStep) : Decidable (goodHistory h) := by
  unfold goodHistory; infer_instance

/-- Modelled from the spec: the side recorded on the last step of the
history, none when the history is empty. -/
def lastSide (s : Session) : Option Side :=
  s.history.getLast?.map ScenarioStep.chosen_side

/-- Modelled from the spec: the choose precondition — status ACTIVE,
non-empty history, last step UNDECIDED. -/
def canChoose (s : Session) : Prop :=
  s.status = Status.ACTIVE ∧ lastSide s = some Side.UNDECIDED

instance (s : Session) : Decidable (canChoose s) := by
  unfold canChoose; infer_instance

/-- Modelled from the spec: the advance precondition — status ACTIVE and a
resolved (LEFT or RIGHT) last step. -/
def canAdvance (s : Session) : Prop :=
  s.status = Status.ACTIVE ∧ lastSide s ≠ none ∧
    lastSide s ≠ some Side.UNDECIDED

instance (s : Session) : Decidable (canAdvance s) := by
  unfold canAdvance; infer_instance

/-- Modelled from the spec: a session obtained from start followed by an
arbitrary sequence of engine operations. -/
def reachable (n : Narrator) (sid : String) (t : TravelerIdentity)
    (ops : List Op) : Session :=
  run n ops (start n sid t).fst

/-- Modelled from the spec: the persistence error taxonomy of the Session
Store boundary. -/
inductive PersistError where
  | StoreFail
  | NotFoundError
  | CorruptDataError
deriving DecidableEq, Repr

/-- Modelled from the spec: the durable representation of one step; the
enum field travels as a string, format being an implementation choice. -/
structure StepRecord where
  scenario_text : String
  left_option : String
  right_option : String
  vision_text : Option String
  chosen_side : String
deriving DecidableEq, Repr

/-- Modelled from the spec: the durable representation of a Session —
identifier, traveler, ordered history and status, sufficient for the
round-trip contract. -/
structure SessionRecord where
  session_id : String
  traveler : String
  history : List StepRecord
  status : String
deriving DecidableEq, Repr

def encodeSide : Side → String
  | Side.LEFT => "LEFT"
  | Side.RIGHT => "RIGHT"
  | Side.UNDECIDED => "UNDECIDED"

def decodeSide (txt : String) : Option Side :=
  if txt = "LEFT" then some Side.LEFT
  else if txt = "RIGHT" then some Side.RIGHT
  else if txt = "UNDECIDED" then some Side.UNDECIDED
  else none

def encodeStatus : Status → String
  | Status.ACTIVE => "ACTIVE"
  | Status.ENDED => "ENDED"

def decodeStatus (txt : String) : Option Status :=
  if txt = "ACTIVE" then some Status.ACTIVE
  else if txt = "ENDED" then some Status.ENDED
  else none

def encodeStep (st : ScenarioStep) : StepRecord :=
  { scenario_text := st.scenario_text
    left_option := st.left_option
    right_option := st.right_option
    vision_text := st.vision_text
    chosen_side := encodeSide st.chosen_side }

def decodeStep (r : StepRecord) : Option ScenarioStep :=
  match decodeSide r.chosen_side with
  | some sd => some
      { scenario_text := r.scenario_text
        left_option := r.left_option
        right_option := r.right_option
        vision_text := r.vision_text
        chosen_side := sd }
  | none => none

def decodeSteps : List StepRecord → Option (List ScenarioStep)
  | [] => some []
  | r :: rs =>
    match decodeStep r, decodeSteps rs with
    | some st, some sts => some (st :: sts)
    | _, _ => none

def encodeSession (s : Session) : SessionRecord :=
  { session_id := s.session_id
    traveler := s.traveler.description
    history := s.history.map encodeStep
    status := encodeStatus s.status }

def decodeSession (r : SessionRecord) : Option Session :=
  match decodeStatus r.status, decodeSteps r.history with
  | some st, some h => some
      { session_id := r.session_id
        traveler := { description := r.traveler }
        history := h
        status := st }
  | _, _ => none

/-- Modelled from the spec: the Session Store state, keyed by the session
identifier. -/
def Store : Type := List (String × SessionRecord)

/-- Modelled from the spec: the save operation of the Session Store,
persisting the durable record under the session identifier. -/
def save (s : Session) (store : Store) : Store :=
  (s.session_id, encodeSession s) :: store

/-- Modelled from the spec: the load operation of the Session Store —
NotFoundError when the identifier is absent, CorruptDataError when the
persisted record fails to decode or violates the data-model invariants on
read, otherwise the reconstructed Session. -/
def load (sid : String) (store : Store) : Except PersistError Session :=
  match List.lookup sid store with
  | none => Except.error PersistError.NotFoundError
  | some r =>
    match decodeSession r with
    | none => Except.error PersistError.CorruptDataError
    | some s =>
      if goodHistory s.history then Except.ok s
      else Except.error PersistError.CorruptDataError

/-- One chat message of the conversation state in src/garden.ipynb,
reduced to the identity and payload relevant to the reducer. -/
structure Message where
  mid : String
  content : String
deriving DecidableEq, Repr

/-- The add_messages reducer that annotates the messages key of the State
TypedDict in src/garden.ipynb: a returned message whose id matches an
existing one replaces it in place, any other is appended at the end, so
fresh messages accumulate instead of overwriting the list. -/
def addMessages (existing news : List Message) : List Message :=
  news.foldl
    (fun acc m =>
      if acc.any (fun e => e.mid == m.mid) then
        acc.map (fun e => if e.mid == m.mid then m else e)
      else acc ++ [m])
    existing

/-- The chatbot node of src/garden.ipynb: it invokes the model on the
current message list and returns exactly one message. -/
def chatbot (llm : List Message → Message) (msgs : List Message) :
    List Message :=
  [llm msgs]

/-- One step of the compiled graph of src/garden.ipynb at the chatbot
node: the messages returned by the node are folded into the state key by
the add_messages annotation. -/
def chatbotStep (llm : List Message → Message) (msgs : List Message) :
    List Message :=
  addMessages msgs (chatbot llm msgs)

/-- A concrete traveler used to instantiate the universally quantified
theorems below. -/
def demoTraveler : TravelerIdentity :=
  { description := "Artorias" }

/-- A concrete well-formed Narrator response. -/
def demoResponse : NarratorResponse :=
  { scenario_text := "A fork."
    left_option := "L"
    right_option := "R"
    vision_text := none }

/-- A Narrator that always answers with the well-formed response. -/
def demoNarrator : Narrator :=
  fun _ _ => demoResponse

/-- A Narrator whose response offers identical options, hence malformed. -/
def badNarrator : Narrator :=
  fun _ _ =>
    { scenario_text := "A fork."
      left_option := "L"
      right_option := "L"
      vision_text := none }

/-- The session right after a successful start: one UNDECIDED step. -/
def demoPending : Session :=
  (start demoNarrator "s1" demoTraveler).fst

/-- The demo session after choosing LEFT: its single step is resolved. -/
def demoResolved : Session :=
  (choose PickedSide.LEFT demoPending).fst

/-- The demo session after the end-journey operation. -/
def demoEnded : Session :=
  (endJourney demoResolved).fst

/-- An empty store for the round-trip witness. -/
def demoStore : Store :=
  []

/-- A concrete message list and model for the conversation graph. -/
def demoMsgs : List Message :=
  [{ mid := "u1", content := "hi" }]

/-- A concrete model call returning a message with a fresh id. -/
def demoLLM : List Message → Message :=
  fun _ => { mid := "a1", content := "hello" }

lemma choose_cases (side : PickedSide) (s : Session) :
    (canChoose s ∧ ∃ last, s.history.getLast? = some last ∧
      choose side s = ({ s with history := s.history.dropLast ++
        [{ last with chosen_side := side.toSide }] }, none)) ∨
    (¬ canChoose s ∧ choose side s = (s, some EngineError.InvalidStateError)) := by
  unfold choose
  split
  · rename_i last hst hl
    by_cases hc : last.chosen_side = Side.UNDECIDED
    · refine Or.inl ⟨⟨hst, ?_⟩, last, hl, ?_⟩
      · show lastSide s = some Side.UNDECIDED
        rw [lastSide, hl, Option.map_some', hc]
      · rw [if_pos hc]
    · refine Or.inr ⟨?_, ?_⟩
      · rintro ⟨-, hp⟩
        rw [lastSide, hl, Option.map_some'] at hp
        exact hc (Option.some_injective _ hp)
      · rw [if_neg hc]
  · rename_i hmis
    refine Or.inr ⟨?_, rfl⟩
    rintro ⟨hst, hp⟩
    rw [lastSide] at hp
    cases hl : s.history.getLast? with
    | none => rw [hl] at hp; exact Option.noConfusion hp
    | some last => exact hmis last hst hl

lemma advance_cases (n : Narrator) (s : Session) :
    (canAdvance s ∧
      ((wellFormed (n s.traveler s.history) ∧
          advance n s = ({ s with history :=
            s.history ++ [stepOf (n s.traveler s.history)] }, none)) ∨
        (¬ wellFormed (n s.traveler s.history) ∧
          advance n s = (s, some EngineError.GenerationError)))) ∨
    (¬ canAdvance s ∧ advance n s = (s, some EngineError.InvalidStateError)) := by
  unfold advance
  split
  · rename_i last hst hl
    by_cases hc : last.chosen_side = Side.UNDECIDED
    · refine Or.inr ⟨?_, ?_⟩
      · rintro ⟨-, -, hp⟩
        rw [lastSide, hl, Option.map_some', hc] at hp
        exact hp rfl
      · rw [if_pos hc]
    · have hpre : canAdvance s := by
        refine ⟨hst, ?_, ?_⟩ <;> rw [lastSide, hl, Option.map_some']
        · exact fun hp => Option.noConfusion hp
        · exact fun hp => hc (Option.some_injective _ hp)
      by_cases hw : wellFormed (n s.traveler s.history)
      · exact Or.inl ⟨hpre, Or.inl ⟨hw, by rw [if_neg hc, if_pos hw]⟩⟩
      · exact Or.inl ⟨hpre, Or.inr ⟨hw, by rw [if_neg hc, if_neg hw]⟩⟩
  · rename_i hmis
    refine Or.inr ⟨?_, rfl⟩
    rintro ⟨hst, hne, -⟩
    rw [lastSide] at hne
    cases hl : s.history.getLast? with
    | none => rw [hl] at hne; exact hne rfl
    | some last => exact hmis last hst hl

lemma endJourney_ended (s : Session) (h : s.status = Status.ENDED) :
    endJourney s = (s, none) := by
  unfold endJourney
  cases s with
  | mk sid t hist st =>
    simp only at h
    subst h
    rfl

lemma choose_ended (side : PickedSide) (s : Session)
    (h : s.status = Status.ENDED) :
    choose side s = (s, some EngineError.InvalidStateError) := by
  rcases choose_cases side s with ⟨⟨hs, -⟩, -⟩ | ⟨-, heq⟩
  · rw [h] at hs; exact Status.noConfusion hs
  · exact heq

lemma advance_ended (n : Narrator) (s : Session)
    (h : s.status = Status.ENDED) :
    advance n s = (s, some EngineError.InvalidStateError) := by
  rcases advance_cases n s with ⟨⟨hs, -⟩, -⟩ | ⟨-, heq⟩
  · rw [h] at hs; exact Status.noConfusion hs
  · exact heq

lemma applyOp_ended (n : Narrator) (op : Op) (s : Session)
    (h : s.status = Status.ENDED) :
    (applyOp n op s).fst = s := by
  cases op with
  | chooseOp side => rw [applyOp, choose_ended side s h]
  | advanceOp => rw [applyOp, advance_ended n s h]
  | endOp => rw [applyOp, endJourney_ended s h]

lemma run_ended (n : Narrator) (ops : List Op) (s : Session)
    (h : s.status = Status.ENDED) :
    run n ops s = s := by
  induction ops generalizing s with
  | nil => rfl
  | cons op ops ih =>
    have hstep := applyOp_ended n op s h
    calc run n (op :: ops) s = run n ops (applyOp n op s).fst := rfl
      _ = run n ops s := by rw [hstep]
      _ = s := ih s h

lemma histOk_all_decided (h : List ScenarioStep) (hok : histOk h)
    (last : ScenarioStep) (hl : h.getLast? = some last)
    (hres : last.chosen_side ≠ Side.UNDECIDED) :
    ∀ st ∈ h, st.chosen_side ≠ Side.UNDECIDED := by
  intro st hmem
  have hsplit : h.dropLast ++ [last] = h :=
    List.dropLast_append_getLast? last hl
  rw [← hsplit] at hmem
  rcases List.mem_append.mp hmem with hmem | hmem
  · exact hok st hmem
  · rw [List.mem_singleton] at hmem
    subst hmem
    exact hres

lemma goodHistory_choose (side : PickedSide) (s : Session)
    (h : goodHistory s.history) :
    goodHistory (choose side s).fst.history := by
  rcases choose_cases side s with ⟨-, last, hl, heq⟩ | ⟨-, heq⟩
  · rw [heq]
    constructor
    · intro st hmem
      rw [List.dropLast_concat] at hmem
      exact h.1 st hmem
    · intro st hmem
      rcases List.mem_append.mp hmem with hmem | hmem
      · exact h.2 st (List.dropLast_subset _ hmem)
      · rw [List.mem_singleton] at hmem
        subst hmem
        exact h.2 last (List.mem_of_mem_getLast? hl)
  · rw [heq]
    exact h

lemma goodHistory_advance (n : Narrator) (s : Session)
    (h : goodHistory s.history) :
    goodHistory (advance n s).fst.history := by
  rcases advance_cases n s with ⟨hpre, ⟨hw, heq⟩ | ⟨-, heq⟩⟩ | ⟨-, heq⟩
  · rw [heq]
    obtain ⟨-, hne, hnu⟩ := hpre
    constructor
    · intro st hmem
      rw [List.dropLast_concat] at hmem
      cases hl : s.history.getLast? with
      | none => rw [lastSide, hl] at hne; exact absurd rfl hne
      | some last =>
        refine histOk_all_decided s.history h.1 last hl ?_ st hmem
        rw [lastSide, hl, Option.map_some'] at hnu
        exact fun hu => hnu (by rw [hu])
    · intro st hmem
      rcases List.mem_append.mp hmem with hmem | hmem
      · exact h.2 st hmem
      · rw [List.mem_singleton] at hmem
        subst hmem
        obtain ⟨h1, h2, h3, h4⟩ := hw
        exact ⟨h1, h2, h3, h4⟩
  · rw [heq]
    exact h
  · rw [heq]
    exact h

lemma goodHistory_start (n : Narrator) (sid : String) (t : TravelerIdentity) :
    goodHistory (start n sid t).fst.history := by
  simp only [start]
  by_cases hw : wellFormed (n t [])
  · rw [if_pos hw]
    constructor
    · intro st hmem
      simp at hmem
    · intro st hmem
      rw [List.mem_singleton] at hmem
      subst hmem
      obtain ⟨h1, h2, h3, h4⟩ := hw
      exact ⟨h1, h2, h3, h4⟩
  · rw [if_neg hw]
    exact ⟨fun st hmem => absurd hmem (by simp [mkSession]),
      fun st hmem => absurd hmem (by simp [mkSession])⟩

lemma goodHistory_applyOp (n : Narrator) (op : Op) (s : Session)
    (h : goodHistory s.history) :
    goodHistory (applyOp n op s).fst.history := by
  cases op with
  | chooseOp side => exact goodHistory_choose side s h
  | advanceOp => exact goodHistory_advance n s h
  | endOp => exact h

lemma goodHistory_run (n : Narrator) (ops : List Op) (s : Session)
    (h : goodHistory s.history) :
    goodHistory (run n ops s).history := by
  induction ops generalizing s with
  | nil => exact h
  | cons op ops ih => exact ih _ (goodHistory_applyOp n op s h)

lemma goodHistory_reachable (n : Narrator) (sid : String)
    (t : TravelerIdentity) (ops : List Op) :
    goodHistory (reachable n sid t ops).history :=
  goodHistory_run n ops _ (goodHistory_start n sid t)

lemma histOk_get (h : List ScenarioStep) (hok : histOk h) (i : Nat)
    (hi : i < h.length) (hlt : i + 1 < h.length) :
    (h.get ⟨i, hi⟩).chosen_side ≠ Side.UNDECIDED := by
  have hd : i < h.dropLast.length := by
    rw [List.length_dropLast]
    omega
  have hsame : h.dropLast.get ⟨i, hd⟩ = h.get ⟨i, hi⟩ := by
    show h.dropLast[i] = h[i]
    exact List.getElem_dropLast ..
  rw [← hsame]
  exact hok _ (List.get_mem _ _ _)

lemma decodeSide_encodeSide (sd : Side) :
    decodeSide (encodeSide sd) = some sd := by
  cases sd <;> rfl

lemma decodeStep_encodeStep (st : ScenarioStep) :
    decodeStep (encodeStep st) = some st := by
  obtain ⟨a, b, c, d, sd⟩ := st
  cases sd <;> rfl

lemma decodeSteps_map_encodeStep (h : List ScenarioStep) :
    decodeSteps (h.map encodeStep) = some h := by
  induction h with
  | nil => rfl
  | cons st rest ih =>
    simp only [List.map_cons, decodeSteps, decodeStep_encodeStep st, ih]

lemma decodeSession_encodeSession (s : Session) :
    decodeSession (encodeSession s) = some s := by
  obtain ⟨sid, ⟨desc⟩, h, st⟩ := s
  simp only [encodeSession, decodeSession, decodeSteps_map_encodeStep]
  cases st <;> rfl

/-- C1: on an ACTIVE session whose last step is resolved, a structurally
malformed Narrator response (empty scenario text, empty option, or equal
options) makes advance fail with GenerationError and leave the session
completely unchanged, so advance can be retried without side effects. -/
theorem advance_generation_atomic (n : Narrator) (s : Session)
    (hpre : canAdvance s)
    (hbad : ¬ wellFormed (n s.traveler s.history)) :
    advance n s = (s, some EngineError.GenerationError) := by
  rcases advance_cases n s with ⟨-, ⟨hw, -⟩ | ⟨-, heq⟩⟩ | ⟨hnp, -⟩
  · exact absurd hw hbad
  · exact heq
  · exact absurd hpre hnp

/-- Closed instance of the C1 theorem at a concrete session and a Narrator
that offers identical options. -/
theorem advance_generation_atomic_witness :
    advance badNarrator demoResolved =
      (demoResolved, some EngineError.GenerationError) :=
  advance_generation_atomic badNarrator demoResolved (by decide) (by decide)

/-- C2: after any sequence of start, choose, advance and end-journey
operations, every step strictly before the last is resolved LEFT or
RIGHT, an UNDECIDED step can only sit at the last position, and two
UNDECIDED positions coincide, so at most one step is UNDECIDED. -/
theorem pending_choice_invariant (n : Narrator) (sid : String)
    (t : TravelerIdentity) (ops : List Op) :
    (∀ i (hi : i < (reachable n sid t ops).history.length),
      i + 1 < (reachable n sid t ops).history.length →
        ((reachable n sid t ops).history.get ⟨i, hi⟩).chosen_side =
            Side.LEFT ∨
          ((reachable n sid t ops).history.get ⟨i, hi⟩).chosen_side =
            Side.RIGHT) ∧
    (∀ i (hi : i < (reachable n sid t ops).history.length),
      ((reachable n sid t ops).history.get ⟨i, hi⟩).chosen_side =
          Side.UNDECIDED →
        i + 1 = (reachable n sid t ops).history.length) ∧
    (∀ i j (hi : i < (reachable n sid t ops).history.length)
      (hj : j < (reachable n sid t ops).history.length),
      ((reachable n sid t ops).history.get ⟨i, hi⟩).chosen_side =
          Side.UNDECIDED →
        ((reachable n sid t ops).history.get ⟨j, hj⟩).chosen_side =
          Side.UNDECIDED →
        i = j) := by
  have hok := (goodHistory_reachable n sid t ops).1
  have hA : ∀ i (hi : i < (reachable n sid t ops).history.length),
      i + 1 < (reachable n sid t ops).history.length →
        ((reachable n sid t ops).history.get ⟨i, hi⟩).chosen_side =
            Side.LEFT ∨
          ((reachable n sid t ops).history.get ⟨i, hi⟩).chosen_side =
            Side.RIGHT := by
    intro i hi hlt
    have hne := histOk_get _ hok i hi hlt
    cases hc : ((reachable n sid t ops).history.get ⟨i, hi⟩).chosen_side with
    | LEFT => exact Or.inl rfl
    | RIGHT => exact Or.inr rfl
    | UNDECIDED => exact absurd hc hne
  have hB : ∀ i (hi : i < (reachable n sid t ops).history.length),
      ((reachable n sid t ops).history.get ⟨i, hi⟩).chosen_side =
          Side.UNDECIDED →
        i + 1 = (reachable n sid t ops).history.length := by
    intro i hi hu
    by_contra hne
    have hlt : i + 1 < (reachable n sid t ops).history.length := by omega
    rcases hA i hi hlt with hc | hc <;> rw [hu] at hc <;>
      exact Side.noConfusion hc
  refine ⟨hA, hB, ?_⟩
  intro i j hi hj hui huj
  have h1 := hB i hi hui
  have h2 := hB j hj huj
  omega

/-- Closed instance of the C2 theorem: on the concrete reachable session
the sole UNDECIDED step sits at the last position. -/
theorem pending_choice_invariant_witness :
    0 + 1 = (reachable demoNarrator "s1" demoTraveler []).history.length :=
  (pending_choice_invariant demoNarrator "s1" demoTraveler []).2.1 0
    (by decide) (by decide)

/-- C3: choose succeeds exactly when the session is ACTIVE with a
non-empty history whose last step is UNDECIDED; its sole effect is then
resolving that last step to the picked side, and any violated
precondition yields InvalidStateError with the session untouched. -/
theorem choose_spec (side : PickedSide) (s : Session) :
    ((choose side s).snd = none ↔ canChoose s) ∧
    (canChoose s → ∃ last, s.history.getLast? = some last ∧
      (choose side s).fst = { s with history := s.history.dropLast ++
        [{ last with chosen_side := side.toSide }] }) ∧
    (¬ canChoose s →
      choose side s = (s, some EngineError.InvalidStateError)) := by
  rcases choose_cases side s with ⟨hcan, last, hl, heq⟩ | ⟨hncan, heq⟩
  · refine ⟨⟨fun _ => hcan, fun _ => by rw [heq]⟩, ?_, ?_⟩
    · intro _
      exact ⟨last, hl, by rw [heq]⟩
    · intro hn
      exact absurd hcan hn
  · refine ⟨?_, ?_, fun _ => heq⟩
    · rw [heq]
      exact ⟨fun hsome => by simp at hsome, fun hc => absurd hc hncan⟩
    · intro hc
      exact absurd hc hncan

/-- Closed instance of the C3 theorem: choosing on an ENDED session is
rejected with InvalidStateError. -/
theorem choose_spec_witness :
    choose PickedSide.LEFT demoEnded =
      (demoEnded, some EngineError.InvalidStateError) :=
  (choose_spec PickedSide.LEFT demoEnded).2.2 (by decide)

/-- C4: advance is rejected with InvalidStateError exactly when its
precondition fails — the session is not ACTIVE, the history is empty, or
the last step is still UNDECIDED — and the session is then unchanged. -/
theorem advance_guard (n : Narrator) (s : Session) :
    (¬ canAdvance s →
      advance n s = (s, some EngineError.InvalidStateError)) ∧
    ((advance n s).snd = some EngineError.InvalidStateError ↔
      ¬ canAdvance s) := by
  rcases advance_cases n s with ⟨hcan, ⟨-, heq⟩ | ⟨-, heq⟩⟩ | ⟨hncan, heq⟩
  · refine ⟨fun hn => absurd hcan hn, ?_⟩
    rw [heq]
    exact ⟨fun hsnd => by simp at hsnd, fun hn => absurd hcan hn⟩
  · refine ⟨fun hn => absurd hcan hn, ?_⟩
    rw [heq]
    exact ⟨fun hsnd => by simp at hsnd, fun hn => absurd hcan hn⟩
  · exact ⟨fun _ => heq, by rw [heq]; exact ⟨fun _ => hncan, fun _ => rfl⟩⟩

/-- Closed instance of the C4 theorem: advance on a session with a pending
UNDECIDED step is rejected with InvalidStateError. -/
theorem advance_guard_witness :
    advance demoNarrator demoPending =
      (demoPending, some EngineError.InvalidStateError) :=
  (advance_guard demoNarrator demoPending).1 (by decide)

/-- C5: on an ENDED session choose and advance fail with
InvalidStateError, and no sequence of engine operations changes the
session at all, so in particular nothing appends a step, modifies the
history, or leaves the ENDED state. -/
theorem ended_terminal (n : Narrator) (s : Session)
    (h : s.status = Status.ENDED) :
    (∀ side, choose side s = (s, some EngineError.InvalidStateError)) ∧
    advance n s = (s, some EngineError.InvalidStateError) ∧
    (∀ ops, run n ops s = s) :=
  ⟨fun side => choose_ended side s h, advance_ended n s h,
    fun ops => run_ended n ops s h⟩

/-- Closed instance of the C5 theorem: advance on the concrete ENDED
session is rejected with InvalidStateError. -/
theorem ended_terminal_witness :
    advance demoNarrator demoEnded =
      (demoEnded, some EngineError.InvalidStateError) :=
  (ended_terminal demoNarrator demoEnded (by decide)).2.1

/-- C6: end-journey sets the status to ENDED, always succeeds (also on an
already ENDED session, where it is a no-op), and applying it twice yields
exactly the same observable session as applying it once. -/
theorem end_idempotent (s : Session) :
    (endJourney s).fst.status = Status.ENDED ∧
    (endJourney s).snd = none ∧
    endJourney (endJourney s).fst = endJourney s :=
  ⟨rfl, rfl, rfl⟩

/-- C7: for every session satisfying the data-model invariants, loading
the identifier just saved reconstructs the session with all observable
fields — identifier, traveler, full ordered history with each chosen
side, and status — equal to the original. -/
theorem store_round_trip (s : Session) (store : Store)
    (h : goodHistory s.history) :
    load s.session_id (save s store) = Except.ok s := by
  unfold load save
  simp only [List.lookup, beq_self_eq_true, decodeSession_encodeSession]
  rw [if_pos h]

/-- Closed instance of the C7 theorem at the concrete resolved session and
an empty store. -/
theorem store_round_trip_witness :
    load demoResolved.session_id (save demoResolved demoStore) =
      Except.ok demoResolved :=
  store_round_trip demoResolved demoStore (by decide)

/-- C8: start builds a session with empty history and ACTIVE status,
requests the opening step from the Narrator with an empty history, and on
a well-formed response appends exactly that step UNDECIDED; on a
malformed response it reports GenerationError and returns the freshly
created session with no appended step. -/
theorem start_spec (n : Narrator) (sid : String) (t : TravelerIdentity) :
    (mkSession sid t).history = [] ∧
    (mkSession sid t).status = Status.ACTIVE ∧
    (stepOf (n t [])).chosen_side = Side.UNDECIDED ∧
    (wellFormed (n t []) →
      start n sid t =
        ({ mkSession sid t with history := [stepOf (n t [])] }, none)) ∧
    (¬ wellFormed (n t []) →
      start n sid t = (mkSession sid t, some EngineError.GenerationError)) := by
  refine ⟨rfl, rfl, rfl, ?_, ?_⟩ <;> intro hw <;> simp only [start]
  · rw [if_pos hw]
  · rw [if_neg hw]

/-- Closed instance of the C8 theorem at the concrete well-formed
Narrator. -/
theorem start_spec_witness :
    start demoNarrator "s1" demoTraveler =
      ({ mkSession "s1" demoTraveler with
          history := [stepOf (demoNarrator demoTraveler [])] }, none) :=
  (start_spec demoNarrator "s1" demoTraveler).2.2.2.1 (by decide)

/-- C9: in every session reachable through the engine, every stored step
carries two non-empty, mutually distinct options, because malformed
Narrator responses are turned into GenerationError instead of being
appended. -/
theorem options_invariant (n : Narrator) (sid : String)
    (t : TravelerIdentity) (ops : List Op) :
    ∀ st ∈ (reachable n sid t ops).history,
      st.left_option ≠ "" ∧ st.right_option ≠ "" ∧
        st.left_option ≠ st.right_option := by
  intro st hmem
  obtain ⟨-, h2, h3, h4⟩ := (goodHistory_reachable n sid t ops).2 st hmem
  exact ⟨h2, h3, h4⟩

/-- Closed instance of the C9 theorem at the concrete opening step. -/
theorem options_invariant_witness :
    (stepOf demoResponse).left_option ≠ "" ∧
    (stepOf demoResponse).right_option ≠ "" ∧
    (stepOf demoResponse).left_option ≠ (stepOf demoResponse).right_option :=
  options_invariant demoNarrator "s1" demoTraveler [] (stepOf demoResponse)
    (by decide)

/-- C10: in the conversation graph of src/garden.ipynb, one chatbot step
returns exactly one message with a fresh id, and the add_messages
annotation appends it: the new state equals the prior list with that one
message appended, earlier messages unchanged and in order. -/
theorem chatbot_appends_one (llm : List Message → Message)
    (msgs : List Message)
    (hfresh : ∀ m ∈ msgs, m.mid ≠ (llm msgs).mid) :
    chatbotStep llm msgs = msgs ++ [llm msgs] ∧
    (chatbotStep llm msgs).length = msgs.length + 1 := by
  have hany : msgs.any (fun e => e.mid == (llm msgs).mid) = false := by
    rw [List.any_eq_false]
    intro m hm
    simpa using hfresh m hm
  have hmain : chatbotStep llm msgs = msgs ++ [llm msgs] := by
    unfold chatbotStep chatbot addMessages
    simp only [List.foldl_cons, List.foldl_nil]
    rw [if_neg (by simp [hany])]
  exact ⟨hmain, by rw [hmain]; simp⟩

/-- Closed instance of the C10 theorem at a concrete message list and a
model call with a fresh id. -/
theorem chatbot_appends_one_witness :
    chatbotStep demoLLM demoMsgs = demoMsgs ++ [demoLLM demoMsgs] :=
  (chatbot_appends_one demoLLM demoMsgs (by decide)).1

end Garden
